import Mathlib

/-!
Shallow embedding of the model-serving layer of the weather-classification
repository (`scripts/04_load_and_predict.py`), together with proofs settling
the specification claims about it.

Modelling conventions:
* Python floats are embedded as exact rationals `ℚ`; "within floating-point
  tolerance" statements are proved as exact equalities, which is stronger.
* A Keras model is embedded as a per-sample function `PImage → List ℚ`;
  `model.predict` on a stacked batch applies the network to each sample row
  independently, so batch inference is `List.map` of the per-sample function.
* `np.argmax` is embedded by `argmax`, returning the first (lowest) index of
  a maximal element, matching numpy's documented tie-breaking.
* `cv2.resize` is embedded as a deterministic nearest-neighbour sampling
  (`resizeNN`): every output pixel is a sampled input pixel (or the zero
  pixel for degenerate inputs).  The claims below depend only on the output
  shape and on output pixels staying in the input channel range, which hold
  for any of cv2's interpolation policies.
* Filesystem reads performed by `load_model` (the `.h5` artifact,
  `metadata.json`, `label_encoder.pkl`) are abstracted by a `Storage` record:
  `none` models a missing file, `some (.error ())` a file that raises during
  deserialization/parsing, `some (.ok v)` a successful read.
* Exceptions caught by the `try/except` blocks are embedded as `Except`
  error values of type `APIError`; the wall-clock `processing_time` fields,
  which no claim mentions, are omitted.
-/

namespace WeatherAPI

/-- RGB pixel with integer channel values (numpy `uint8` channels). -/
structure RGB where
  r : ℕ
  g : ℕ
  b : ℕ
deriving DecidableEq

/-- Decoded bitmap: rows of RGB pixels (the `np.ndarray` form an input image
takes after PIL decoding and RGB conversion in `preprocess_image`). -/
abbrev Img := List (List RGB)

/-- Normalized pixel after division by 255: rational channel values. -/
structure QRGB where
  r : ℚ
  g : ℚ
  b : ℚ
deriving DecidableEq

/-- A single preprocessed image plane of shape (H, W, 3). -/
abbrev PImage := List (List QRGB)

/-- A loaded Keras model, embedded as its per-sample forward function from a
preprocessed image to the raw output score vector. -/
abbrev Model := PImage → List ℚ

/-- Metadata record as read from `metadata.json` (`classes` and
`target_size = [width, height]` are the fields the serving code uses). -/
structure Metadata where
  classes : List String
  target_size : List ℕ
deriving DecidableEq

/-- Label encoder: the `classes_` array of a fitted sklearn `LabelEncoder`;
`inverse_transform([i])[0]` is position `i` of this list. -/
abbrev Encoder := List String

/-- Default metadata hard-coded in `load_model` for when `metadata.json`
is absent. -/
def defaultMetadata : Metadata :=
  { classes := ["cloudy", "foggy", "rainy", "snowy", "sunny"]
    target_size := [224, 224] }

/-- Insert a string into a sorted list (helper for `fitClasses`). -/
def insertSorted (s : String) : List String → List String
  | [] => [s]
  | t :: ts => if s < t then s :: t :: ts else t :: insertSorted s ts

/-- Model of `LabelEncoder().fit(classes)`: sklearn stores `np.unique` of the
values, i.e. the sorted deduplicated class names. -/
def fitClasses (cs : List String) : List String :=
  cs.dedup.foldr insertSorted []

/-- Abstraction of the storage the API reads during `load_model`.
`modelFile name`: the `.h5` artifact for `name` (`none` = file absent,
`.error` = Keras deserialization raises, `.ok m` = loaded model).
`metadataFile`: `artifacts/processed_data/metadata.json`.
`encoderFile`: `artifacts/processed_data/label_encoder.pkl`.
`latest`: the `.h5` stem with the greatest mtime, used by
`_load_latest_model` (`none` when the models directory has no `.h5` files). -/
structure Storage where
  modelFile : String → Option (Except Unit Model)
  metadataFile : Option (Except Unit Metadata)
  encoderFile : Option (Except Unit Encoder)
  latest : Option String

/-- Mutable state of a `WeatherClassificationAPI` instance: the
`loaded_models` dict (association list, last insert wins), `current_model`,
`model_metadata` (`none` embeds the initial empty dict) and `label_encoder`. -/
structure APIState where
  loaded_models : List (String × Model)
  current_model : Option Model
  model_metadata : Option Metadata
  label_encoder : Option Encoder

/-- Field values set by `__init__` before any model load. -/
def initState : APIState :=
  { loaded_models := []
    current_model := none
    model_metadata := none
    label_encoder := none }

/-- Pure resolution part of `load_model`: what a load of `name` from storage
`st` would produce.  Mirrors the body of
`WeatherClassificationAPI.load_model` line by line: missing artifact and any
raised exception (deserialization, metadata parse, unpickling) end in the
`except` branch, i.e. `none`; a missing `metadata.json` falls back to
`defaultMetadata`; a missing `label_encoder.pkl` falls back to fitting a
fresh encoder on the metadata classes. -/
def resolveLoad (st : Storage) (name : String) : Option (Model × Metadata × Encoder) :=
  match st.modelFile name with
  | none => none
  | some (.error _) => none
  | some (.ok model) =>
    match (match st.metadataFile with
           | none => Except.ok defaultMetadata
           | some r => r : Except Unit Metadata) with
    | .error _ => none
    | .ok metadata =>
      match (match st.encoderFile with
             | none => Except.ok (fitClasses metadata.classes)
             | some r => r : Except Unit Encoder) with
      | .error _ => none
      | .ok enc => some (model, metadata, enc)

/-- Dict update `self.loaded_models[model_name] = model`. -/
def dictInsert (name : String) (m : Model) (d : List (String × Model)) :
    List (String × Model) :=
  (name, m) :: d.filter (fun p => p.1 ≠ name)

/-- Embedding of `WeatherClassificationAPI.load_model`.  Returns the state
after the call and the boolean result.  On any failure the original state is
returned with `false` (the `except` branch only logs); on success all four
fields are stored together and `true` is returned. -/
def load_model (st : Storage) (s : APIState) (name : String) : APIState × Bool :=
  match resolveLoad st name with
  | none => (s, false)
  | some (model, metadata, enc) =>
    ({ loaded_models := dictInsert name model s.loaded_models
       current_model := some model
       model_metadata := some metadata
       label_encoder := some enc }, true)

/-- Embedding of `WeatherClassificationAPI._load_latest_model` followed by
`__init__`: construct the instance, loading the default model when one is
named, otherwise the latest model on storage when any exists. -/
def mkAPI (st : Storage) (default_model_name : Option String) : APIState :=
  match default_model_name with
  | some name => (load_model st initState name).1
  | none =>
    match st.latest with
    | none => initState
    | some name => (load_model st initState name).1

/-! Preprocessing (`WeatherClassificationAPI.preprocess_image`). -/

/-- Nearest-neighbour model of `cv2.resize(image, (w, h))`: an output grid of
`h` rows and `w` columns, each output pixel sampled from the input image (the
zero pixel stands in for out-of-range sampling on degenerate inputs). -/
def resizeNN (img : Img) (w h : ℕ) : Img :=
  (List.range h).map (fun i =>
    (List.range w).map (fun j =>
      (img.getD (i * img.length / h) []).getD
        (j * (img.headD []).length / w) ⟨0, 0, 0⟩))

/-- Normalization `image.astype(np.float32) / 255.0` on one pixel. -/
def normPixel (p : RGB) : QRGB :=
  ⟨(p.r : ℚ) / 255, (p.g : ℚ) / 255, (p.b : ℚ) / 255⟩

/-- Resize-and-normalize core of `preprocess_image`: resize the decoded
bitmap to `target_size = (width, height)` (`cv2.resize` returns `height`
rows of `width` pixels) and scale channels from `[0,255]` to `[0,1]`. -/
def preprocess_core (md : Metadata) (img : Img) : PImage :=
  (resizeNN img (md.target_size.getD 0 0) (md.target_size.getD 1 0)).map
    (fun row => row.map normPixel)

/-- Embedding of `preprocess_image`: the core tensor with the leading batch
dimension of 1 added by `np.expand_dims(image, axis=0)`. -/
def preprocess_image (md : Metadata) (img : Img) : List PImage :=
  [preprocess_core md img]

/-! Prediction decoding. -/

/-- Model of `np.argmax`: the index of the first maximal element (numpy
breaks ties by returning the first occurrence); 0 on the empty list, where
numpy raises instead — callers guard that case separately. -/
def argmax : List ℚ → ℕ
  | [] => 0
  | [_] => 0
  | x :: xs => if xs.getD (argmax xs) 0 > x then argmax xs + 1 else 0

/-- The probabilities dict
`{inverse_transform([i])[0]: prob for i, prob in enumerate(probabilities)}`:
defined when every index of the score vector is in the encoder's range
(otherwise `inverse_transform` raises), pairing class `i` with score `i`. -/
def decodeProbs (enc : Encoder) (probs : List ℚ) : Option (List (String × ℚ)) :=
  if probs.length ≤ enc.length then some (enc.zip probs) else none

/-- Result record built by `predict_single` (wall-clock timing omitted). -/
structure PredResult where
  predicted_class : String
  confidence : ℚ
  probabilities : List (String × ℚ)
deriving DecidableEq

/-- Result record built per element by `predict_batch`. -/
structure BatchResult where
  image_index : ℕ
  predicted_class : String
  confidence : ℚ
  probabilities : List (String × ℚ)
deriving DecidableEq

/-- Structured errors of the serving layer (each an `HTTPException` site in
the source). -/
inductive APIError where
  /-- `HTTPException(500, "No model loaded")`. -/
  | noModelLoaded
  /-- `HTTPException(400, ...)` raised by `preprocess_image`. -/
  | preprocessingError
  /-- Catch-all `HTTPException(500, ...)` of `predict_single`/`predict_batch`. -/
  | predictionError
  /-- `HTTPException(400, "Maximum 10 images per batch")`. -/
  | batchTooLarge
  /-- `HTTPException(400, "File ... must be an image")`. -/
  | notAnImage
deriving DecidableEq

/-- Score-vector decoding done inside `predict_single` (lines 224-240):
`np.argmax` (raises on an empty vector), `inverse_transform` of the argmax
index (raises when out of the encoder's range), confidence lookup, and the
probabilities dict. -/
def decodeSingle (enc : Encoder) (probs : List ℚ) : Option PredResult :=
  if probs = [] then none
  else
    match enc.get? (argmax probs), decodeProbs enc probs with
    | some cls, some ps =>
      some { predicted_class := cls
             confidence := probs.getD (argmax probs) 0
             probabilities := ps }
    | _, _ => none

/-- Score-vector decoding done per element inside `predict_batch`
(lines 279-294); identical to `decodeSingle` plus the `image_index` field. -/
def decodeBatch (enc : Encoder) (i : ℕ) (probs : List ℚ) : Option BatchResult :=
  if probs = [] then none
  else
    match enc.get? (argmax probs), decodeProbs enc probs with
    | some cls, some ps =>
      some { image_index := i
             predicted_class := cls
             confidence := probs.getD (argmax probs) 0
             probabilities := ps }
    | _, _ => none

/-- Collect a list of optional values, failing on the first `none` (the
embedding of the first raised exception aborting a Python loop). -/
def collectSome : List (Option α) → Option (List α)
  | [] => some []
  | none :: _ => none
  | some x :: rest => (collectSome rest).map (x :: ·)

/-- Embedding of `WeatherClassificationAPI.predict_single`: check for a
loaded model, preprocess (requires the metadata installed by `load_model`),
run the model on the singleton batch, and decode `predictions[0]`.  Every
exception caught by the source's `try/except` is an `APIError`. -/
def predict_single (s : APIState) (img : Img) : Except APIError PredResult :=
  match s.current_model with
  | none => .error .noModelLoaded
  | some m =>
    match s.model_metadata with
    | none => .error .preprocessingError
    | some md =>
      match s.label_encoder with
      | none => .error .predictionError
      | some enc =>
        let processed := preprocess_image md img
        let predictions := processed.map m
        match predictions.getD 0 [] with
        | probs =>
          match decodeSingle enc probs with
          | none => .error .predictionError
          | some r => .ok r

/-- Embedding of `WeatherClassificationAPI.predict_batch`: check for a
loaded model, preprocess every image and strip the batch dimension
(`processed_image[0]`), stack, run one model call on the stacked batch
(= the per-sample function mapped over the rows), and decode each row with
its index. -/
def predict_batch (s : APIState) (imgs : List Img) :
    Except APIError (List BatchResult) :=
  match s.current_model with
  | none => .error .noModelLoaded
  | some m =>
    match s.model_metadata with
    | none => .error .preprocessingError
    | some md =>
      match s.label_encoder with
      | none => .error .predictionError
      | some enc =>
        let batch_images := imgs.map (fun img => (preprocess_image md img).getD 0 [])
        let predictions := batch_images.map m
        match collectSome (predictions.enum.map (fun ip => decodeBatch enc ip.1 ip.2)) with
        | none => .error .predictionError
        | some results => .ok results

/-- An uploaded file as the `/predict/batch` endpoint sees it: its filename,
whether its content type starts with `image/`, and the decoded image. -/
structure UploadFile where
  filename : String
  isImageContentType : Bool
  image : Img

/-- Embedding of the `predict_batch_images` endpoint (`POST /predict/batch`):
reject batches of more than 10 files before anything else runs; then check
each file's content type, collect the images, delegate to `predict_batch`,
and pair each result with its filename. -/
def predict_batch_images (s : APIState) (files : List UploadFile) :
    Except APIError (List (String × BatchResult)) :=
  if files.length > 10 then .error .batchTooLarge
  else
    match collectSome (files.map
        (fun f => if f.isImageContentType then some f.image else none)) with
    | none => .error .notAnImage
    | some images =>
      match predict_batch s images with
      | .error e => .error e
      | .ok results => .ok ((files.map (fun f => f.filename)).zip results)

/-! Helper lemmas about the embedded numpy/library primitives. -/

/-- Specification of first-maximum indices: `i` is in range, no element is
greater than the one at `i`, and every earlier element is strictly smaller. -/
def isFirstMaxIdx (l : List ℚ) (i : ℕ) : Prop :=
  i < l.length ∧ (∀ j, j < l.length → l.getD j 0 ≤ l.getD i 0) ∧
    ∀ j, j < i → l.getD j 0 < l.getD i 0

/-- Unit-interval value obtained by linearly scaling an integer channel
value from `[0,255]`. -/
def unitScaled (q : ℚ) : Prop :=
  ∃ c : ℕ, c ≤ 255 ∧ q = (c : ℚ) / 255

/-- Per-image decodability: the model's raw output on the preprocessed image
is nonempty and within the encoder's index range (the conditions under which
the source's decoding raises no exception). -/
def decodeOk (m : Model) (md : Metadata) (enc : Encoder) (img : Img) : Prop :=
  m (preprocess_core md img) ≠ [] ∧
    (m (preprocess_core md img)).length ≤ enc.length

instance (m : Model) (md : Metadata) (enc : Encoder) (img : Img) :
    Decidable (decodeOk m md enc img) := by
  unfold decodeOk; infer_instance

/-- Placeholder batch result, used only as a `List.getD` default. -/
def dummyBatchResult : BatchResult :=
  { image_index := 0, predicted_class := "", confidence := 0, probabilities := [] }

/-! State-machine view of the serving API, for the cross-operation
invariant. -/

/-- One public operation on a `WeatherClassificationAPI` instance. -/
inductive Op where
  /-- A call to `load_model` against storage `st`. -/
  | load (st : Storage) (name : String)
  /-- A call to `predict_single`. -/
  | predictSingle (img : Img)
  /-- A call to `predict_batch`. -/
  | predictBatch (imgs : List Img)
  /-- A call to `get_model_info`. -/
  | modelInfo
  /-- A call to `get_available_models` (reads storage only). -/
  | availableModels (st : Storage)

/-- State transition of each public operation.  `load_model` is the only
method whose body assigns any instance field; `predict_single`,
`predict_batch`, `get_model_info` and `get_available_models` contain no
assignment to `self.*` and so leave the state unchanged. -/
def stepOp (s : APIState) : Op → APIState
  | .load st name => (load_model st s name).1
  | .predictSingle _ => s
  | .predictBatch _ => s
  | .modelInfo => s
  | .availableModels _ => s

/-- Run a sequence of public operations from a state. -/
def runOps (s : APIState) (ops : List Op) : APIState :=
  ops.foldl stepOp s

/-- The load call an operation performs, recorded as the (storage, name)
pair passed to `load_model`; `none` for the four read-only operations. -/
def loadOf : Op → Option (Storage × String)
  | .load st name => some (st, name)
  | _ => none

/-- The load call `__init__` itself performs: the default model when one is
named, otherwise the latest model on storage when any exists, otherwise
none. -/
def initLoads (st : Storage) (dn : Option String) : List (Storage × String) :=
  match dn with
  | some name => [(st, name)]
  | none =>
    match st.latest with
    | none => []
    | some name => [(st, name)]

/-- Coherence invariant, relative to the list of load calls actually
performed in a run (each recorded as the storage and model name that were
passed to `load_model`): whenever a current model is installed, it is one of
the values of the `loaded_models` dict, and one single actually-performed
load call resolved the current model, the held metadata and the held label
encoder together.  Because the quantification ranges only over the recorded
load calls — not over arbitrary storages — an incoherent state (say, a
current model paired with metadata or an encoder installed by a different
load) does not satisfy the invariant for the loads of the run that reaches
the state. -/
def Inv (loads : List (Storage × String)) (s : APIState) : Prop :=
  ∀ m, s.current_model = some m →
    (∃ name, (name, m) ∈ s.loaded_models) ∧
    ∃ p ∈ loads, ∃ md enc, resolveLoad p.1 p.2 = some (m, md, enc) ∧
      s.model_metadata = some md ∧ s.label_encoder = some enc

/-! Concrete objects used by the witness and counterexample theorems. -/

/-- The five weather classes, in metadata order (alphabetically sorted, so
the sklearn encoder's index order coincides with it). -/
def witClasses : List String := ["cloudy", "foggy", "rainy", "snowy", "sunny"]

/-- Metadata with the five classes and a 1x1 target size (kept tiny so the
kernel can evaluate the preprocessing pipeline in witnesses). -/
def witMetadata : Metadata := { classes := witClasses, target_size := [1, 1] }

/-- A one-pixel uniform gray input image. -/
def witGray : Img := [[⟨128, 128, 128⟩]]

/-- A model whose raw output is the uniform distribution over 5 classes. -/
def uniformModel : Model := fun _ => [1/5, 1/5, 1/5, 1/5, 1/5]

/-- A model whose raw output vector sums to 2 — not a valid probability
distribution. -/
def badModel : Model := fun _ => [2, 0, 0, 0, 0]

/-- A model whose output layer has width 4 (one fewer than the 5 metadata
classes). -/
def width4Model : Model := fun _ => [1/4, 1/4, 1/4, 1/4]

/-- Service state with the uniform model loaded. -/
def uniformState : APIState :=
  { loaded_models := [("weather_cnn", uniformModel)]
    current_model := some uniformModel
    model_metadata := some witMetadata
    label_encoder := some witClasses }

/-- Service state with the invalid-distribution model loaded. -/
def badState : APIState :=
  { loaded_models := [("weather_cnn", badModel)]
    current_model := some badModel
    model_metadata := some witMetadata
    label_encoder := some witClasses }

/-- Storage with no model files at all. -/
def emptyStorage : Storage :=
  { modelFile := fun _ => none
    metadataFile := none
    encoderFile := none
    latest := none }

/-- Storage resolving every model name to the uniform model, with metadata
and encoder files present. -/
def goodStorage : Storage :=
  { modelFile := fun _ => some (.ok uniformModel)
    metadataFile := some (.ok witMetadata)
    encoderFile := some (.ok witClasses)
    latest := none }

/-- Storage resolving every model name to the width-4 model while the
metadata file lists 5 classes. -/
def stWidth4 : Storage :=
  { modelFile := fun _ => some (.ok width4Model)
    metadataFile := some (.ok witMetadata)
    encoderFile := some (.ok witClasses)
    latest := none }

/-- Eleven valid uploaded image files (one more than the batch cap). -/
def elevenFiles : List UploadFile :=
  List.replicate 11 { filename := "f.png", isImageContentType := true, image := witGray }

theorem argmax_lt_length (l : List ℚ) (h : l ≠ []) : argmax l < l.length := by
  induction l with
  | nil => exact absurd rfl h
  | cons x xs ih =>
    cases xs with
    | nil => simp [argmax]
    | cons y ys =>
      simp only [argmax]
      split
      · have := ih (by simp)
        simpa using Nat.succ_lt_succ this
      · simp

theorem argmax_is_max (l : List ℚ) (j : ℕ) (hj : j < l.length) :
    l.getD j 0 ≤ l.getD (argmax l) 0 := by
  induction l generalizing j with
  | nil => simp at hj
  | cons x xs ih =>
    cases xs with
    | nil =>
      have hj0 : j = 0 := by simpa using Nat.lt_one_iff.mp (by simpa using hj)
      simp [hj0, argmax]
    | cons y ys =>
      simp only [argmax]
      split
      · rename_i hgt
        rw [List.getD_cons_succ]
        cases j with
        | zero => simpa [List.getD_cons_zero] using le_of_lt hgt
        | succ k =>
          rw [List.getD_cons_succ]
          exact ih k (by simpa using hj)
      · rename_i hle
        rw [List.getD_cons_zero]
        cases j with
        | zero => simp
        | succ k =>
          rw [List.getD_cons_succ]
          exact le_trans (ih k (by simpa using hj)) (not_lt.mp hle)

theorem argmax_first (l : List ℚ) (j : ℕ) (hj : j < argmax l) :
    l.getD j 0 < l.getD (argmax l) 0 := by
  induction l generalizing j with
  | nil => simp [argmax] at hj
  | cons x xs ih =>
    cases xs with
    | nil => simp [argmax] at hj
    | cons y ys =>
      simp only [argmax] at hj ⊢
      split
      · rename_i hgt
        rw [List.getD_cons_succ]
        rw [if_pos hgt] at hj
        cases j with
        | zero => simpa [List.getD_cons_zero] using hgt
        | succ k =>
          rw [List.getD_cons_succ]
          exact ih k (by omega)
      · rename_i hle
        rw [if_neg hle] at hj
        omega

theorem argmax_isFirstMaxIdx (l : List ℚ) (h : l ≠ []) :
    isFirstMaxIdx l (argmax l) :=
  ⟨argmax_lt_length l h, fun j hj => argmax_is_max l j hj,
   fun j hj => argmax_first l j hj⟩

theorem getD_eq_getElem {α : Type} (l : List α) (d : α) {i : ℕ}
    (h : i < l.length) : l.getD i d = l[i] := by
  simp [List.getD_eq_getElem?_getD, List.getElem?_eq_getElem h]

theorem decodeSingle_eq (enc : Encoder) (probs : List ℚ) (h1 : probs ≠ [])
    (h2 : probs.length ≤ enc.length) :
    decodeSingle enc probs =
      some { predicted_class := enc.getD (argmax probs) ""
             confidence := probs.getD (argmax probs) 0
             probabilities := enc.zip probs } := by
  have ha : argmax probs < enc.length :=
    lt_of_lt_of_le (argmax_lt_length probs h1) h2
  have hget : enc.get? (argmax probs) = some (enc.getD (argmax probs) "") := by
    rw [List.get?_eq_get ha]
    congr 1
    rw [getD_eq_getElem enc "" ha]
    exact List.get_eq_getElem enc ⟨argmax probs, ha⟩
  unfold decodeSingle decodeProbs
  rw [if_neg h1, if_pos h2, hget]

theorem decodeBatch_eq (enc : Encoder) (i : ℕ) (probs : List ℚ)
    (h1 : probs ≠ []) (h2 : probs.length ≤ enc.length) :
    decodeBatch enc i probs =
      some { image_index := i
             predicted_class := enc.getD (argmax probs) ""
             confidence := probs.getD (argmax probs) 0
             probabilities := enc.zip probs } := by
  have ha : argmax probs < enc.length :=
    lt_of_lt_of_le (argmax_lt_length probs h1) h2
  have hget : enc.get? (argmax probs) = some (enc.getD (argmax probs) "") := by
    rw [List.get?_eq_get ha]
    congr 1
    rw [getD_eq_getElem enc "" ha]
    exact List.get_eq_getElem enc ⟨argmax probs, ha⟩
  unfold decodeBatch decodeProbs
  rw [if_neg h1, if_pos h2, hget]

theorem collectSome_map {α β : Type} (f : β → Option α) (g : β → α)
    (l : List β) (h : ∀ x ∈ l, f x = some (g x)) :
    collectSome (l.map f) = some (l.map g) := by
  induction l with
  | nil => rfl
  | cons x xs ih =>
    have hx := h x (by simp)
    simp [collectSome, hx, ih (fun y hy => h y (by simp [hy]))]

theorem mem_enumFrom_snd {α : Type} (l : List α) :
    ∀ (n : ℕ) (p : ℕ × α), p ∈ l.enumFrom n → p.2 ∈ l := by
  induction l with
  | nil => intro n p h; simp [List.enumFrom] at h
  | cons x xs ih =>
    intro n p h
    rw [List.enumFrom, List.mem_cons] at h
    rcases h with h | h
    · simp [h]
    · simp [ih _ _ h]

theorem mem_enum_snd {α : Type} (l : List α) (p : ℕ × α) (h : p ∈ l.enum) :
    p.2 ∈ l :=
  mem_enumFrom_snd l 0 p h

/-- C1: for every list of valid input images of length at most 10 and a
loaded model, the k-th element of `predict_batch` has the same
predicted_class, confidence and per-class probabilities as `predict_single`
applied to the k-th image alone (exact equality over `ℚ`, hence within any
floating-point tolerance). -/
theorem C1_batch_refines_single
    (lm : List (String × Model)) (m : Model) (md : Metadata) (enc : Encoder)
    (imgs : List Img) (hn : imgs.length ≤ 10)
    (hok : ∀ img ∈ imgs, decodeOk m md enc img) :
    ∃ rs, predict_batch ⟨lm, some m, some md, some enc⟩ imgs = .ok rs ∧
      rs.length = imgs.length ∧
      ∀ k, k < imgs.length →
        ∃ r, predict_single ⟨lm, some m, some md, some enc⟩ (imgs.getD k []) = .ok r ∧
          (rs.getD k dummyBatchResult).predicted_class = r.predicted_class ∧
          (rs.getD k dummyBatchResult).confidence = r.confidence ∧
          (rs.getD k dummyBatchResult).probabilities = r.probabilities := by
  have hg : ∀ ip ∈ ((imgs.map fun img =>
        (preprocess_image md img).getD 0 []).map m).enum,
      decodeBatch enc ip.1 ip.2 = some
        { image_index := ip.1
          predicted_class := enc.getD (argmax ip.2) ""
          confidence := ip.2.getD (argmax ip.2) 0
          probabilities := enc.zip ip.2 } := by
    intro ip hip
    have hsnd := mem_enum_snd _ _ hip
    rw [List.map_map] at hsnd
    obtain ⟨img, himg, heq⟩ := List.mem_map.mp hsnd
    have heq2 : m (preprocess_core md img) = ip.2 := heq
    obtain ⟨hne, hlen⟩ := hok img himg
    rw [heq2] at hne hlen
    exact decodeBatch_eq enc ip.1 ip.2 hne hlen
  have hcollect := collectSome_map
    (fun ip : ℕ × List ℚ => decodeBatch enc ip.1 ip.2)
    (fun ip : ℕ × List ℚ =>
      { image_index := ip.1
        predicted_class := enc.getD (argmax ip.2) ""
        confidence := ip.2.getD (argmax ip.2) 0
        probabilities := enc.zip ip.2 })
    ((imgs.map fun img => (preprocess_image md img).getD 0 []).map m).enum hg
  have hpb : predict_batch ⟨lm, some m, some md, some enc⟩ imgs
      = match collectSome
          (((imgs.map fun img => (preprocess_image md img).getD 0 []).map m).enum.map
            fun ip => decodeBatch enc ip.1 ip.2) with
        | none => .error .predictionError
        | some results => .ok results := rfl
  refine ⟨_, by rw [hpb, hcollect], by simp [List.enum_length], ?_⟩
  intro k hk
  have hkp : k < ((imgs.map fun img =>
      (preprocess_image md img).getD 0 []).map m).length := by simpa using hk
  have hke : k < ((imgs.map fun img =>
      (preprocess_image md img).getD 0 []).map m).enum.length := by
    simpa [List.enum_length] using hkp
  have hpk : ((imgs.map fun img =>
      (preprocess_image md img).getD 0 []).map m)[k]
      = m (preprocess_core md (imgs[k])) := by
    simp [List.getElem_map]
    rfl
  obtain ⟨hne, hlen⟩ := hok (imgs[k]) (List.getElem_mem hk)
  have himgk : imgs.getD k [] = imgs[k] := getD_eq_getElem imgs [] hk
  have hps : predict_single ⟨lm, some m, some md, some enc⟩ (imgs[k])
      = match decodeSingle enc (m (preprocess_core md (imgs[k]))) with
        | none => .error .predictionError
        | some r => .ok r := rfl
  refine ⟨{ predicted_class := enc.getD (argmax (m (preprocess_core md (imgs[k])))) ""
            confidence := (m (preprocess_core md (imgs[k]))).getD
              (argmax (m (preprocess_core md (imgs[k])))) 0
            probabilities := enc.zip (m (preprocess_core md (imgs[k]))) },
    ?_, ?_, ?_, ?_⟩
  · rw [himgk, hps, decodeSingle_eq enc _ hne hlen]
  · rw [getD_eq_getElem _ _ (by simpa using hke), List.getElem_map,
      List.getElem_enum, hpk]
  · rw [getD_eq_getElem _ _ (by simpa using hke), List.getElem_map,
      List.getElem_enum, hpk]
  · rw [getD_eq_getElem _ _ (by simpa using hke), List.getElem_map,
      List.getElem_enum, hpk]

/-- C1 witness: concrete two-image batch against the loaded uniform model. -/
theorem C1_witness :
    ∃ rs, predict_batch uniformState [witGray, witGray] = .ok rs ∧
      rs.length = 2 ∧
      ∀ k, k < 2 →
        ∃ r, predict_single uniformState
            (([witGray, witGray] : List Img).getD k []) = .ok r ∧
          (rs.getD k dummyBatchResult).predicted_class = r.predicted_class ∧
          (rs.getD k dummyBatchResult).confidence = r.confidence ∧
          (rs.getD k dummyBatchResult).probabilities = r.probabilities :=
  C1_batch_refines_single [("weather_cnn", uniformModel)] uniformModel
    witMetadata witClasses [witGray, witGray] (by decide) (by decide)

/-- C2: a `load_model` call that fails (returns `False`) leaves the current
model, the metadata and the label encoder — in fact the whole service
state — exactly as they were before the call, and the failure is reported
to the caller as the `False` return value. -/
theorem C2_failed_load_preserves_state (st : Storage) (s : APIState)
    (name : String) (h : (load_model st s name).2 = false) :
    (load_model st s name).1.current_model = s.current_model ∧
    (load_model st s name).1.model_metadata = s.model_metadata ∧
    (load_model st s name).1.label_encoder = s.label_encoder ∧
    (load_model st s name).1 = s := by
  cases hres : resolveLoad st name with
  | none => simp [load_model, hres]
  | some v =>
    obtain ⟨m, md, e⟩ := v
    simp [load_model, hres] at h

/-- C2 witness: loading from empty storage fails and preserves the loaded
uniform-model state. -/
theorem C2_witness :
    (load_model emptyStorage uniformState "weather_cnn").2 = false ∧
    (load_model emptyStorage uniformState "weather_cnn").1.current_model
      = uniformState.current_model :=
  ⟨rfl, (C2_failed_load_preserves_state emptyStorage uniformState
    "weather_cnn" rfl).1⟩

/-- C3: the batch endpoint rejects every batch of more than 10 files with
`BatchTooLarge`, for every service state — in particular independently of
the loaded model, so no preprocessing and no inference can have run (the cap
check precedes the `try` block, file reads, and the `predict_batch` call in
the source). -/
theorem C3_batch_cap_enforced (s : APIState) (files : List UploadFile)
    (h : files.length > 10) :
    predict_batch_images s files = .error .batchTooLarge := by
  unfold predict_batch_images
  rw [if_pos h]

/-- C3 witness: eleven files are rejected with `BatchTooLarge`; the state is
one with no model loaded, so the reply shows the cap check fires before the
`NoModelLoaded` check inside inference would. -/
theorem C3_witness :
    elevenFiles.length = 11 ∧
    predict_batch_images initState elevenFiles = .error .batchTooLarge :=
  ⟨rfl, C3_batch_cap_enforced initState elevenFiles (by decide)⟩

/-- C4: while no model is loaded, `predict_single` and `predict_batch` on
any input return the structured error `NoModelLoaded` (an `HTTPException`,
not an unhandled fault), and a failing `load_model` keeps the state
model-less, so the behaviour persists until some load succeeds. -/
theorem C4_no_model_loaded_errors (s : APIState)
    (h : s.current_model = none) :
    (∀ img, predict_single s img = .error .noModelLoaded) ∧
    (∀ imgs, predict_batch s imgs = .error .noModelLoaded) ∧
    (∀ st name, (load_model st s name).2 = false →
      (load_model st s name).1.current_model = none) := by
  refine ⟨?_, ?_, ?_⟩
  · intro img
    unfold predict_single
    rw [h]
  · intro imgs
    unfold predict_batch
    rw [h]
  · intro st name hfail
    cases hres : resolveLoad st name with
    | none => simp [load_model, hres, h]
    | some v =>
      obtain ⟨m, md, e⟩ := v
      simp [load_model, hres] at hfail

/-- C4 witness: the freshly constructed state answers `NoModelLoaded` on
both entry points. -/
theorem C4_witness :
    predict_single initState witGray = .error .noModelLoaded ∧
    predict_batch initState [witGray] = .error .noModelLoaded := by
  obtain ⟨h1, h2, -⟩ := C4_no_model_loaded_errors initState rfl
  exact ⟨h1 witGray, h2 [witGray]⟩

/-- C5: on a loaded model, `predict_single` returns the class name at the
argmax index of the probability vector (ties resolved to the lowest index,
as `isFirstMaxIdx` states), with confidence equal to the probability at that
index. -/
theorem C5_argmax_decoding
    (lm : List (String × Model)) (m : Model) (md : Metadata) (enc : Encoder)
    (img : Img) (hne : m (preprocess_core md img) ≠ [])
    (hlen : (m (preprocess_core md img)).length ≤ enc.length) :
    ∃ r, predict_single ⟨lm, some m, some md, some enc⟩ img = .ok r ∧
      r.predicted_class = enc.getD (argmax (m (preprocess_core md img))) "" ∧
      r.confidence = (m (preprocess_core md img)).getD
        (argmax (m (preprocess_core md img))) 0 ∧
      r.probabilities.map Prod.snd = m (preprocess_core md img) ∧
      isFirstMaxIdx (m (preprocess_core md img))
        (argmax (m (preprocess_core md img))) := by
  have hps : predict_single ⟨lm, some m, some md, some enc⟩ img
      = match decodeSingle enc (m (preprocess_core md img)) with
        | none => .error .predictionError
        | some r => .ok r := rfl
  refine ⟨{ predicted_class := enc.getD (argmax (m (preprocess_core md img))) ""
            confidence := (m (preprocess_core md img)).getD
              (argmax (m (preprocess_core md img))) 0
            probabilities := enc.zip (m (preprocess_core md img)) },
    ?_, rfl, rfl, List.map_snd_zip enc _ hlen, argmax_isFirstMaxIdx _ hne⟩
  rw [hps, decodeSingle_eq enc _ hne hlen]

/-- C5 witness: the spec's tie-breaking scenario — a model returning the
uniform vector `[0.2, 0.2, 0.2, 0.2, 0.2]` over the five weather classes
yields `predicted_class = "cloudy"` (the lowest index) with confidence
`0.2`. -/
theorem C5_witness :
    ∃ r, predict_single uniformState witGray = .ok r ∧
      r.predicted_class = "cloudy" ∧ r.confidence = 1/5 := by
  obtain ⟨r, hr, hclass, hconf, -, -⟩ := C5_argmax_decoding
    [("weather_cnn", uniformModel)] uniformModel witMetadata witClasses
    witGray (by decide) (by decide)
  refine ⟨r, hr, ?_, ?_⟩
  · rw [hclass]
    norm_num [uniformModel, witClasses, argmax]
  · rw [hconf]
    norm_num [uniformModel, argmax]

/-- Probabilities record returned for the invalid-distribution model. -/
def badProbs : List (String × ℚ) :=
  [("cloudy", 2), ("foggy", 0), ("rainy", 0), ("snowy", 0), ("sunny", 0)]

/-- C6 counterexample: with a loaded model whose raw output `[2,0,0,0,0]`
is not a probability distribution, `predict_single` does not fail with any
`InvalidModelOutput`-style error: it succeeds and returns the raw scores
unchanged as `probabilities`, which sum to 2 — farther than `1e-4` from 1.
This refutes both the rejection clause and the sum-to-1 consequence of the
claim. -/
theorem C6_counterexample :
    predict_single badState witGray =
      .ok { predicted_class := "cloudy", confidence := 2,
            probabilities := badProbs } ∧
    (badProbs.map Prod.snd).sum = 2 := by
  constructor
  · rfl
  · norm_num [badProbs]

/-- C6 amended: the prediction engine uses the model's raw output vector
unchanged as the result's probabilities in every case — it neither validates
that the scores form a distribution nor re-normalizes them, and never fails
because of the scores' values; consequently the returned probabilities sum
to 1 exactly when the model's raw output does. -/
theorem C6_amended_raw_passthrough
    (lm : List (String × Model)) (m : Model) (md : Metadata) (enc : Encoder)
    (img : Img) (hne : m (preprocess_core md img) ≠ [])
    (hlen : (m (preprocess_core md img)).length ≤ enc.length) :
    ∃ r, predict_single ⟨lm, some m, some md, some enc⟩ img = .ok r ∧
      r.probabilities.map Prod.snd = m (preprocess_core md img) ∧
      (r.probabilities.map Prod.snd).sum = (m (preprocess_core md img)).sum := by
  have hps : predict_single ⟨lm, some m, some md, some enc⟩ img
      = match decodeSingle enc (m (preprocess_core md img)) with
        | none => .error .predictionError
        | some r => .ok r := rfl
  refine ⟨{ predicted_class := enc.getD (argmax (m (preprocess_core md img))) ""
            confidence := (m (preprocess_core md img)).getD
              (argmax (m (preprocess_core md img))) 0
            probabilities := enc.zip (m (preprocess_core md img)) },
    ?_, List.map_snd_zip enc _ hlen, ?_⟩
  · rw [hps, decodeSingle_eq enc _ hne hlen]
  · rw [List.map_snd_zip enc _ hlen]

/-- C6 amended witness: the invalid-distribution model's scores pass through
unchanged. -/
theorem C6_amended_witness :
    ∃ r, predict_single badState witGray = .ok r ∧
      r.probabilities.map Prod.snd = [2, 0, 0, 0, 0] ∧
      (r.probabilities.map Prod.snd).sum = ([2, 0, 0, 0, 0] : List ℚ).sum :=
  C6_amended_raw_passthrough [("weather_cnn", badModel)] badModel witMetadata
    witClasses witGray (by decide) (by decide)

/-- C7 counterexample: `load_model` performs no comparison of the metadata
class count against the model's output width.  Loading a model whose output
layer has width 4 while the metadata lists 5 classes does not fail with any
`InvalidMetadata`-style error: it returns `True` and installs the model. -/
theorem C7_counterexample :
    (load_model stWidth4 initState "weather_cnn").2 = true ∧
    (load_model stWidth4 initState "weather_cnn").1.current_model
      = some width4Model ∧
    (width4Model (preprocess_core witMetadata witGray)).length = 4 ∧
    witMetadata.classes.length = 5 := by
  refine ⟨rfl, rfl, by decide, by decide⟩

/-- C7 amended: a load whose artifact, metadata and label mapping all read
successfully succeeds and installs the model regardless of any relation
between the metadata class count and the model's output width — the
mismatch is not detected at load time (it can only surface later, at
inference time). -/
theorem C7_amended_no_width_check (st : Storage) (s : APIState)
    (name : String) (m : Model) (md : Metadata) (enc : Encoder)
    (h1 : st.modelFile name = some (.ok m))
    (h2 : st.metadataFile = some (.ok md))
    (h3 : st.encoderFile = some (.ok enc)) :
    (load_model st s name).2 = true ∧
    (load_model st s name).1.current_model = some m ∧
    (load_model st s name).1.model_metadata = some md := by
  have hres : resolveLoad st name = some (m, md, enc) := by
    unfold resolveLoad
    rw [h1, h2, h3]
  simp [load_model, hres]

/-- C7 amended witness: the width-4 model loads against the 5-class
metadata. -/
theorem C7_amended_witness :
    (load_model stWidth4 initState "other_model").2 = true ∧
    (load_model stWidth4 initState "other_model").1.current_model
      = some width4Model ∧
    (load_model stWidth4 initState "other_model").1.model_metadata
      = some witMetadata :=
  C7_amended_no_width_check stWidth4 initState "other_model" width4Model
    witMetadata witClasses rfl rfl rfl

/-- C10: `load_model` is a total function into a boolean (the catch-all
`try/except` converts every raised exception into a logged `False` return):
it returns `True` exactly when the artifact resolved — found, deserialized,
metadata and label mapping read — in which case the model is installed as
current; on `False` the state is returned unchanged. -/
theorem C10_load_model_total_boolean (st : Storage) (s : APIState)
    (name : String) :
    ((load_model st s name).2 = true ↔ (resolveLoad st name).isSome = true) ∧
    (∀ m md enc, resolveLoad st name = some (m, md, enc) →
      (load_model st s name).2 = true ∧
      (load_model st s name).1.current_model = some m) ∧
    ((load_model st s name).2 = false → (load_model st s name).1 = s) := by
  cases hres : resolveLoad st name with
  | none =>
    refine ⟨by simp [load_model, hres], ?_, by simp [load_model, hres]⟩
    intro m md e heq
    exact absurd heq (by simp)
  | some v =>
    obtain ⟨m0, md0, e0⟩ := v
    refine ⟨by simp [load_model, hres], ?_, by simp [load_model, hres]⟩
    intro m md e heq
    have hv : m0 = m ∧ md0 = md ∧ e0 = e := by simpa using heq
    obtain ⟨rfl, rfl, rfl⟩ := hv
    simp [load_model, hres]

/-- C10 witness: a fully resolvable storage yields `True` and installs the
model. -/
theorem C10_witness :
    (load_model goodStorage initState "weather_cnn").2 = true ∧
    (load_model goodStorage initState "weather_cnn").1.current_model
      = some uniformModel :=
  (C10_load_model_total_boolean goodStorage initState "weather_cnn").2.1
    uniformModel witMetadata witClasses rfl

/-- Every pixel sampled by the resize step is either an input pixel or the
zero pixel, so its channels stay within the input channel bound 255. -/
theorem sampledPixelBound (img : Img)
    (hpix : ∀ row ∈ img, ∀ p ∈ row, p.r ≤ 255 ∧ p.g ≤ 255 ∧ p.b ≤ 255)
    (i j : ℕ) :
    ((img.getD i []).getD j ⟨0, 0, 0⟩).r ≤ 255 ∧
    ((img.getD i []).getD j ⟨0, 0, 0⟩).g ≤ 255 ∧
    ((img.getD i []).getD j ⟨0, 0, 0⟩).b ≤ 255 := by
  by_cases hi : i < img.length
  · rw [getD_eq_getElem img [] hi]
    by_cases hj : j < (img[i]).length
    · rw [getD_eq_getElem _ _ hj]
      exact hpix _ (List.getElem_mem hi) _ (List.getElem_mem hj)
    · rw [List.getD_eq_default _ _ (le_of_not_lt hj)]
      exact ⟨Nat.zero_le _, Nat.zero_le _, Nat.zero_le _⟩
  · rw [List.getD_eq_default _ _ (le_of_not_lt hi)]
    simp

/-- A linearly scaled channel value lies in the unit interval. -/
theorem unitScaled_mem_unit (q : ℚ) (h : unitScaled q) : 0 ≤ q ∧ q ≤ 1 := by
  obtain ⟨c, hc, rfl⟩ := h
  refine ⟨by positivity, ?_⟩
  rw [div_le_one (by norm_num : (0:ℚ) < 255)]
  exact_mod_cast hc

/-- C8: for a metadata target size `(w, h)` and any input image with integer
channels in `[0,255]`, `preprocess_image` produces a tensor of shape
`(1, h, w, 3)` — a leading batch dimension of length 1, `h` rows of `w`
3-channel pixels — and every channel value is `c / 255` for some integer
`c ≤ 255`, hence lies in `[0, 1]`. -/
theorem C8_preprocess_shape_range (md : Metadata) (img : Img) (w h : ℕ)
    (hts : md.target_size = [w, h])
    (hpix : ∀ row ∈ img, ∀ p ∈ row, p.r ≤ 255 ∧ p.g ≤ 255 ∧ p.b ≤ 255) :
    (preprocess_image md img).length = 1 ∧
    ∀ t ∈ preprocess_image md img,
      t.length = h ∧
      ∀ row ∈ t, row.length = w ∧
        ∀ q ∈ row,
          unitScaled q.r ∧ unitScaled q.g ∧ unitScaled q.b ∧
          0 ≤ q.r ∧ q.r ≤ 1 ∧ 0 ≤ q.g ∧ q.g ≤ 1 ∧ 0 ≤ q.b ∧ q.b ≤ 1 := by
  have hw : md.target_size.getD 0 0 = w := by rw [hts]; rfl
  have hh : md.target_size.getD 1 0 = h := by rw [hts]; rfl
  refine ⟨rfl, ?_⟩
  intro t ht
  have ht2 : t = preprocess_core md img := by
    simpa [preprocess_image] using ht
  subst ht2
  unfold preprocess_core
  rw [hw, hh]
  refine ⟨by simp [resizeNN], ?_⟩
  intro row hrow
  obtain ⟨row0, hrow0, rfl⟩ := List.mem_map.mp hrow
  unfold resizeNN at hrow0
  obtain ⟨i, hi, rfl⟩ := List.mem_map.mp hrow0
  refine ⟨by simp, ?_⟩
  intro q hq
  obtain ⟨p0, hp0, rfl⟩ := List.mem_map.mp hq
  obtain ⟨j, hj, rfl⟩ := List.mem_map.mp hp0
  have hb := sampledPixelBound img hpix (i * img.length / h)
    (j * (img.headD []).length / w)
  have h1 : unitScaled (normPixel
      ((img.getD (i * img.length / h) []).getD
        (j * (img.headD []).length / w) ⟨0, 0, 0⟩)).r := ⟨_, hb.1, rfl⟩
  have h2 : unitScaled (normPixel
      ((img.getD (i * img.length / h) []).getD
        (j * (img.headD []).length / w) ⟨0, 0, 0⟩)).g := ⟨_, hb.2.1, rfl⟩
  have h3 : unitScaled (normPixel
      ((img.getD (i * img.length / h) []).getD
        (j * (img.headD []).length / w) ⟨0, 0, 0⟩)).b := ⟨_, hb.2.2, rfl⟩
  obtain ⟨h1a, h1b⟩ := unitScaled_mem_unit _ h1
  obtain ⟨h2a, h2b⟩ := unitScaled_mem_unit _ h2
  obtain ⟨h3a, h3b⟩ := unitScaled_mem_unit _ h3
  exact ⟨h1, h2, h3, h1a, h1b, h2a, h2b, h3a, h3b⟩

/-- C8 witness: the 1x1 gray image at target size `(1, 1)`. -/
theorem C8_witness :
    (preprocess_image witMetadata witGray).length = 1 ∧
    ∀ t ∈ preprocess_image witMetadata witGray,
      t.length = 1 ∧
      ∀ row ∈ t, row.length = 1 ∧
        ∀ q ∈ row,
          unitScaled q.r ∧ unitScaled q.g ∧ unitScaled q.b ∧
          0 ≤ q.r ∧ q.r ≤ 1 ∧ 0 ≤ q.g ∧ q.g ≤ 1 ∧ 0 ≤ q.b ∧ q.b ≤ 1 :=
  C8_preprocess_shape_range witMetadata witGray 1 1 rfl (by decide)

/-- Monotonicity of the invariant in the recorded loads: extending the list
of performed load calls preserves it. -/
theorem Inv_mono (loads loads2 : List (Storage × String)) (s : APIState)
    (hsub : ∀ p ∈ loads, p ∈ loads2) (h : Inv loads s) : Inv loads2 s := by
  intro m hm
  obtain ⟨h1, p, hp, md, enc, hres, h2, h3⟩ := h m hm
  exact ⟨h1, p, hsub p hp, md, enc, hres, h2, h3⟩

/-- Base case of the invariant: the freshly initialized state has no current
model, so the invariant holds with no load performed. -/
theorem Inv_initState : Inv [] initState := by
  intro m hm
  simp [initState] at hm

/-- Inductive step of the invariant for `load_model`: a failed load changes
nothing; a successful load installs model, metadata and encoder from the one
resolution of the load call just performed and records the model in
`loaded_models`. -/
theorem Inv_load (loads : List (Storage × String)) (st : Storage)
    (s : APIState) (name : String) (hs : Inv loads s) :
    Inv (loads ++ [(st, name)]) ((load_model st s name).1) := by
  cases hres : resolveLoad st name with
  | none =>
    have hstate : (load_model st s name).1 = s := by simp [load_model, hres]
    rw [hstate]
    exact Inv_mono loads _ s (fun p hp => by simp [hp]) hs
  | some v =>
    obtain ⟨m0, md0, e0⟩ := v
    intro m hm
    have hstate : (load_model st s name).1 =
        { loaded_models := dictInsert name m0 s.loaded_models
          current_model := some m0
          model_metadata := some md0
          label_encoder := some e0 } := by
      simp [load_model, hres]
    rw [hstate] at hm
    have hm0 : some m0 = some m := hm
    obtain rfl : m0 = m := Option.some.inj hm0
    rw [hstate]
    exact ⟨⟨name, by simp [dictInsert]⟩, (st, name), by simp, md0, e0, hres,
      rfl, rfl⟩

/-- Construction establishes the invariant relative to the load `__init__`
itself performs. -/
theorem Inv_mkAPI (st : Storage) (dn : Option String) :
    Inv (initLoads st dn) (mkAPI st dn) := by
  cases dn with
  | some name => exact Inv_load [] st initState name Inv_initState
  | none =>
    unfold mkAPI initLoads
    cases hl : st.latest with
    | none => exact Inv_initState
    | some name => exact Inv_load [] st initState name Inv_initState

/-- Running any operation sequence preserves the invariant, extending the
recorded loads by exactly the load calls the sequence performs. -/
theorem Inv_runOps (ops : List Op) (loads : List (Storage × String))
    (s : APIState) (hs : Inv loads s) :
    Inv (loads ++ ops.filterMap loadOf) (runOps s ops) := by
  induction ops generalizing loads s with
  | nil => simpa [runOps] using hs
  | cons op ops ih =>
    cases op with
    | load st name =>
      have h2 := ih (loads ++ [(st, name)]) ((load_model st s name).1)
        (Inv_load loads st s name hs)
      simpa [runOps, stepOp, loadOf, List.append_assoc] using h2
    | predictSingle img => simpa [runOps, stepOp, loadOf] using ih loads s hs
    | predictBatch imgs => simpa [runOps, stepOp, loadOf] using ih loads s hs
    | modelInfo => simpa [runOps, stepOp, loadOf] using ih loads s hs
    | availableModels st => simpa [runOps, stepOp, loadOf] using ih loads s hs

/-- C9: in every state reachable by constructing the API (construction may
itself load the default or latest model) and running any sequence of public
operations, whenever a current model is installed it is one of the
`loaded_models` values, and one single load call actually performed during
the run resolved the current model, the held metadata and the held label
encoder together — so metadata and encoder were installed with the current
model by the same successful load, not mixed from different loads or from
any storage other than the ones really used. -/
theorem C9_state_invariant (st0 : Storage) (dn : Option String)
    (ops : List Op) :
    Inv (initLoads st0 dn ++ ops.filterMap loadOf) (runOps (mkAPI st0 dn) ops) :=
  Inv_runOps ops (initLoads st0 dn) (mkAPI st0 dn) (Inv_mkAPI st0 dn)

/-- C9 witness: a concrete run — construction with a default model against
resolvable storage, one further load, and a read-only operation — satisfies
the invariant relative to exactly the two load calls performed. -/
theorem C9_witness :
    Inv (initLoads goodStorage (some "weather_cnn")
        ++ [Op.load goodStorage "second", Op.modelInfo].filterMap loadOf)
      (runOps (mkAPI goodStorage (some "weather_cnn"))
        [Op.load goodStorage "second", Op.modelInfo]) :=
  C9_state_invariant goodStorage (some "weather_cnn")
    [Op.load goodStorage "second", Op.modelInfo]

end WeatherAPI
